import Mathlib

/-!
Verification of the settings-loading module `app/core/config.py` of the
fastapi-react-serverless backend.

The module declares a pydantic `Settings` class with 21 fields and defaults,
a `field_validator` (`assemble_cors_origins`, mode "before") normalizing the
`ALLOWED_HOSTS` value, and loads a `.env` file with `load_dotenv(".env",
override=True)` before binding environment variables (case-sensitively) to
the fields.

Python values reaching the validator are modelled by `PyVal`; strings are
modelled as Lean `String`s with Python's `str.strip` and `str.split(",")`
semantics reproduced on character lists.
-/

namespace Config

/-- A Python value as far as this module can observe one: a string, an
integer, a (possibly nested) list, or any other non-string non-list value
(`other` covers `None`, floats, dicts, ...). -/
inductive PyVal where
  | str : String → PyVal
  | int : Int → PyVal
  | list : List PyVal → PyVal
  | other : PyVal

/-- The characters removed by Python's `str.strip()` (ASCII whitespace). -/
def pyIsSpace (c : Char) : Bool :=
  c = ' ' || c = '\t' || c = '\n' || c = '\r' || c = '\x0b' || c = '\x0c'

/-- Python's `str.strip()` on a character list: drop leading and trailing
whitespace. -/
def pyStripChars (cs : List Char) : List Char :=
  ((cs.dropWhile pyIsSpace).reverse.dropWhile pyIsSpace).reverse

/-- Python's `s.split(",")` on a character list: split at every comma,
keeping empty pieces, so that the result always has one more piece than
there are commas. -/
def splitComma : List Char → List (List Char)
  | [] => [[]]
  | c :: cs =>
    if c = ',' then [] :: splitComma cs
    else
      match splitComma cs with
      | [] => [[c]]
      | p :: ps => (c :: p) :: ps

/-- The `assemble_cors_origins` validator of `Settings` (mode "before"):
a string is split on commas, each piece stripped, and pieces that are empty
after stripping dropped (`[i.strip() for i in v.split(",") if i.strip()]`);
a list is returned unchanged; anything else becomes `["*"]`. -/
def assemble_cors_origins (v : PyVal) : PyVal :=
  match v with
  | .str s =>
      .list (((((splitComma s.toList).map pyStripChars).filter
        (fun p => !p.isEmpty)).map (fun p => PyVal.str (String.mk p))))
  | .list xs => .list xs
  | _ => .list [.str "*"]

/-- The allow-list rule as the specification words it: split the raw string
on a comma, trim surrounding whitespace from each piece, discard the pieces
that are empty after trimming, keep the order. -/
def specNormalize (s : String) : List String :=
  ((splitComma s.toList).map (fun p => String.mk (pyStripChars p))).filter
    (fun t => !t.data.isEmpty)

/-- Is the value a raw string? -/
def isStrVal : PyVal → Bool
  | .str _ => true
  | _ => false

/-- Is the value a list? -/
def isListVal : PyVal → Bool
  | .list _ => true
  | _ => false

/-- Does a value satisfy `List[str]` (a list whose elements are all strings)? -/
def isListOfStr : PyVal → Bool
  | .list xs => xs.all isStrVal
  | _ => false

/-- Is the value a non-empty string? -/
def nonEmptyStrVal : PyVal → Bool
  | .str s => !s.data.isEmpty
  | _ => false

/-- Is the value a list of non-empty strings? -/
def allNonEmptyStr : PyVal → Bool
  | .list xs => xs.all nonEmptyStrVal
  | _ => false

/-- Validation of an `ALLOWED_HOSTS` init value: run the "before" validator,
then check the declared annotation `Union[List[str], str]`; a result that
fits neither arm is a pydantic validation error (`Option.none`). -/
def validateAllowedHosts (v : PyVal) : Option PyVal :=
  let r := assemble_cors_origins v
  if isListOfStr r || isStrVal r then some r else Option.none

example : assemble_cors_origins (.str "a, b ,,c") =
    .list [.str "a", .str "b", .str "c"] := rfl
example : assemble_cors_origins (.str "") = .list [] := rfl
example : specNormalize "a, b ,,c" = ["a", "b", "c"] := rfl
example : validateAllowedHosts (.list [.str ""]) = some (.list [.str ""]) := rfl

/-- The `Settings` record: the 21 fields of the pydantic class, with
`ALLOWED_HOSTS` keeping the annotated shape `Union[List[str], str]`
(a `PyVal`), and the integer fields as integers. -/
structure Settings where
  PROJECT_NAME : String
  VERSION : String
  DESCRIPTION : String
  API_V1_STR : String
  ENVIRONMENT : String
  ALLOWED_HOSTS : PyVal
  AWS_REGION : String
  AWS_ACCESS_KEY_ID : Option String
  AWS_SECRET_ACCESS_KEY : Option String
  DYNAMODB_TABLE_PREFIX : String
  USERS_TABLE_NAME : String
  COGNITO_USER_POOL_ID : Option String
  COGNITO_CLIENT_ID : Option String
  COGNITO_CLIENT_SECRET : Option String
  COGNITO_REGION : String
  S3_BUCKET_NAME : Option String
  S3_REGION : String
  JWT_SECRET_KEY : String
  JWT_ALGORITHM : String
  ACCESS_TOKEN_EXPIRE_MINUTES : Int
  CACHE_TTL : Int

/-- Modelled from the spec: the documented default for every field of the
data-model table (the class-body defaults of `Settings`). -/
def defaultSettings : Settings where
  PROJECT_NAME := "FastAPI AWS Boilerplate"
  VERSION := "1.0.0"
  DESCRIPTION := "FastAPI application with AWS services"
  API_V1_STR := "/api/v1"
  ENVIRONMENT := "development"
  ALLOWED_HOSTS := .list [.str "*"]
  AWS_REGION := "us-east-1"
  AWS_ACCESS_KEY_ID := Option.none
  AWS_SECRET_ACCESS_KEY := Option.none
  DYNAMODB_TABLE_PREFIX := "fastapi-app"
  USERS_TABLE_NAME := "fastapi-app-users"
  COGNITO_USER_POOL_ID := Option.none
  COGNITO_CLIENT_ID := Option.none
  COGNITO_CLIENT_SECRET := Option.none
  COGNITO_REGION := "us-east-1"
  S3_BUCKET_NAME := Option.none
  S3_REGION := "us-east-1"
  JWT_SECRET_KEY := "your-secret-key-change-this"
  JWT_ALGORITHM := "HS256"
  ACCESS_TOKEN_EXPIRE_MINUTES := 30
  CACHE_TTL := 300

/-- An environment: an association list of `KEY=VALUE` pairs; the first
binding of a key wins. -/
abbrev Env := List (String × String)

/-- Exact-case lookup of a variable in an environment
(`Config.case_sensitive = True`). -/
def lookupEnv (env : Env) (k : String) : Option String :=
  (env.find? (fun p => p.1 == k)).map (fun p => p.2)

/-- Modelled from the spec: `load_dotenv(".env", override=True)` merges the
entries of the environment-definition file into the process environment, the
file's value overwriting any pre-existing same-named process variable. -/
def mergeDotenv (fileEnv procEnv : Env) : Env :=
  fileEnv ++ procEnv

/-- Numeric value of a list of decimal digits. -/
def digitsToNat (ds : List Char) : Nat :=
  ds.foldl (fun a c => a * 10 + (c.toNat - Char.toNat '0')) 0

/-- Modelled from the spec: integer fields parse the environment string as a
base-10 integer (surrounding whitespace tolerated, optional sign); any other
string is non-numeric and cannot be coerced. -/
def pyIntParse (s : String) : Option Int :=
  let cs := pyStripChars s.toList
  let sd : Int × List Char :=
    match cs with
    | '-' :: r => (-1, r)
    | '+' :: r => (1, r)
    | r => (1, r)
  if sd.2.isEmpty || !sd.2.all Char.isDigit then Option.none
  else some (sd.1 * (digitsToNat sd.2 : Int))

example : pyIntParse "45" = some 45 := rfl
example : pyIntParse " -300 " = some (-300) := rfl
example : pyIntParse "not-a-number" = Option.none := rfl
example : pyIntParse "" = Option.none := rfl

/-- Scan a JSON string literal after its opening quote (no escapes): the
collected characters and the remainder after the closing quote. -/
def scanStr : List Char → List Char → Option (String × List Char)
  | [], _ => Option.none
  | c :: cs, acc =>
    if c = '"' then some (String.mk acc.reverse, cs)
    else if c = '\\' then Option.none
    else scanStr cs (c :: acc)

/-- Drop leading whitespace. -/
def skipWs (cs : List Char) : List Char :=
  cs.dropWhile pyIsSpace

/-- Scan after the first element of a JSON list of strings: either `]` ends
the list, or `, "item"` continues it. -/
def scanTail (fuel : Nat) (cs : List Char) (acc : List String) : Option (List String) :=
  match fuel with
  | 0 => Option.none
  | fuel + 1 =>
    match skipWs cs with
    | ']' :: rest => if (skipWs rest).isEmpty then some acc.reverse else Option.none
    | ',' :: rest =>
      match skipWs rest with
      | '"' :: body =>
        match scanStr body [] with
        | some (s, rest2) => scanTail fuel rest2 (s :: acc)
        | Option.none => Option.none
      | _ => Option.none
    | _ => Option.none

/-- Parse a whole input as a flat JSON list of plain strings. -/
def scanList (cs : List Char) : Option (List String) :=
  match skipWs cs with
  | ']' :: rest => if (skipWs rest).isEmpty then some [] else Option.none
  | '"' :: body =>
    match scanStr body [] with
    | some (s, rest) => scanTail (rest.length + 1) rest [s]
    | Option.none => Option.none
  | _ => Option.none

/-- Modelled from the spec: the loader decodes the environment string of the
list-typed field into a structured shape when it is well-formed (a flat JSON
list of strings, or a base-10 integer); otherwise the raw string itself is
the value handed to the normalizer. -/
def decodeEnvValue (s : String) : PyVal :=
  match pyIntParse s with
  | some n => .int n
  | Option.none =>
    match pyStripChars s.toList with
    | '[' :: rest =>
      match scanList rest with
      | some items => .list (items.map PyVal.str)
      | Option.none => .str s
    | _ => .str s

example : decodeEnvValue "a, b ,,c" = .str "a, b ,,c" := rfl
example : decodeEnvValue "[\"a\", \"b\"]" = .list [.str "a", .str "b"] := rfl
example : decodeEnvValue "[\"\"]" = .list [.str ""] := rfl
example : decodeEnvValue "42" = .int 42 := rfl
example : decodeEnvValue "[]" = .list [] := rfl

/-- The error raised when an environment value cannot be coerced to an
integer field. -/
inductive ConfigError where
  | intParse : String → String → ConfigError

/-- String field: the exact-case environment value, or the default. -/
def getStr (env : Env) (name dflt : String) : String :=
  (lookupEnv env name).getD dflt

/-- Optional string field: the environment value when present, else unset. -/
def getOptStr (env : Env) (name : String) : Option String :=
  lookupEnv env name

/-- Integer field: parse the environment value as a base-10 integer, failing
with `ConfigError` when it is non-numeric; unset falls back to the default. -/
def getInt (env : Env) (name : String) (dflt : Int) : Except ConfigError Int :=
  match lookupEnv env name with
  | Option.none => .ok dflt
  | some s =>
    match pyIntParse s with
    | some n => .ok n
    | Option.none => .error (.intParse name s)

/-- The `ALLOWED_HOSTS` field as bound from an environment string: decode the
raw string, then run the `assemble_cors_origins` validator. -/
def allowedHostsFromEnv (s : String) : PyVal :=
  assemble_cors_origins (decodeEnvValue s)

/-- Modelled from the spec: `load()` over an already-merged environment.
Every field looks up its exact-case variable; string fields pass through,
optional fields stay unset when absent, integer fields parse base-10 (the
only failure path), and `ALLOWED_HOSTS` goes through the allow-list
normalizer. Absent variables leave the class-body default. -/
def loadFromEnv (env : Env) : Except ConfigError Settings := do
  let tokMin ← getInt env "ACCESS_TOKEN_EXPIRE_MINUTES" 30
  let ttl ← getInt env "CACHE_TTL" 300
  Except.ok
    { PROJECT_NAME := getStr env "PROJECT_NAME" "FastAPI AWS Boilerplate"
      VERSION := getStr env "VERSION" "1.0.0"
      DESCRIPTION := getStr env "DESCRIPTION" "FastAPI application with AWS services"
      API_V1_STR := getStr env "API_V1_STR" "/api/v1"
      ENVIRONMENT := getStr env "ENVIRONMENT" "development"
      ALLOWED_HOSTS :=
        match lookupEnv env "ALLOWED_HOSTS" with
        | Option.none => PyVal.list [PyVal.str "*"]
        | some s => allowedHostsFromEnv s
      AWS_REGION := getStr env "AWS_REGION" "us-east-1"
      AWS_ACCESS_KEY_ID := getOptStr env "AWS_ACCESS_KEY_ID"
      AWS_SECRET_ACCESS_KEY := getOptStr env "AWS_SECRET_ACCESS_KEY"
      DYNAMODB_TABLE_PREFIX := getStr env "DYNAMODB_TABLE_PREFIX" "fastapi-app"
      USERS_TABLE_NAME := getStr env "USERS_TABLE_NAME" "fastapi-app-users"
      COGNITO_USER_POOL_ID := getOptStr env "COGNITO_USER_POOL_ID"
      COGNITO_CLIENT_ID := getOptStr env "COGNITO_CLIENT_ID"
      COGNITO_CLIENT_SECRET := getOptStr env "COGNITO_CLIENT_SECRET"
      COGNITO_REGION := getStr env "COGNITO_REGION" "us-east-1"
      S3_BUCKET_NAME := getOptStr env "S3_BUCKET_NAME"
      S3_REGION := getStr env "S3_REGION" "us-east-1"
      JWT_SECRET_KEY := getStr env "JWT_SECRET_KEY" "your-secret-key-change-this"
      JWT_ALGORITHM := getStr env "JWT_ALGORITHM" "HS256"
      ACCESS_TOKEN_EXPIRE_MINUTES := tokMin
      CACHE_TTL := ttl }

/-- Modelled from the spec: `load()` — merge the environment-definition file
over the process environment (file wins), then bind every field. -/
def load (fileEnv procEnv : Env) : Except ConfigError Settings :=
  loadFromEnv (mergeDotenv fileEnv procEnv)

example : load [] [] = Except.ok defaultSettings := rfl
example : loadFromEnv [("CACHE_TTL", "xx")] =
    Except.error (.intParse "CACHE_TTL" "xx") := rfl

theorem mk_data (p : List Char) : (String.mk p).data = p := rfl

theorem filter_strip_comm (l : List (List Char)) :
    ((l.map pyStripChars).filter (fun p => !p.isEmpty)).map
      (fun p => PyVal.str (String.mk p)) =
    ((l.map (fun p => String.mk (pyStripChars p))).filter
      (fun t => !t.data.isEmpty)).map PyVal.str := by
  induction l with
  | nil => rfl
  | cons p ps ih =>
    by_cases h : (pyStripChars p).isEmpty = true
    · simp [List.filter, mk_data, h, List.isEmpty_iff.mp h, ih]
    · simp only [List.map_cons, List.filter, mk_data, Bool.not_eq_true] at ih ⊢
      rw [eq_false_of_ne_true h]
      simp [ih]

/-- C1. For every raw string value, the normalizer splits on commas, trims
each piece, discards pieces empty after trimming and keeps the order (it
agrees with `specNormalize`, the rule as the spec words it); in particular
the string input of `ALLOWED_HOSTS` as the string `a, b ,,c` yields exactly the hosts
`a`, `b`, `c` in order. -/
theorem allowlist_normalizer_string_rule :
    (∀ s : String, assemble_cors_origins (PyVal.str s) =
      PyVal.list ((specNormalize s).map PyVal.str)) ∧
    assemble_cors_origins (PyVal.str "a, b ,,c") =
      PyVal.list [PyVal.str "a", PyVal.str "b", PyVal.str "c"] := by
  refine ⟨fun s => ?_, rfl⟩
  simp only [assemble_cors_origins, specNormalize, filter_strip_comm,
    List.map_map]

/-- C3. For every raw value that is already a list, the normalizer returns
that list unchanged: same elements, same order, no trimming or filtering. -/
theorem allowlist_pass_through_list (xs : List PyVal) :
    assemble_cors_origins (PyVal.list xs) = PyVal.list xs := rfl

/-- C4. For every raw value that is neither a string nor a list (a number,
`None`, ...), the normalizer returns the fallback `["*"]` instead of
raising. -/
theorem allowlist_fallback_star (v : PyVal)
    (h1 : isStrVal v = false) (h2 : isListVal v = false) :
    assemble_cors_origins v = PyVal.list [PyVal.str "*"] := by
  cases v with
  | str s => simp [isStrVal] at h1
  | list xs => simp [isListVal] at h2
  | int n => rfl
  | other => rfl

theorem allowlist_fallback_star_witness :
    isStrVal (PyVal.int 42) = false ∧ isListVal (PyVal.int 42) = false ∧
    assemble_cors_origins (PyVal.int 42) = PyVal.list [PyVal.str "*"] :=
  ⟨rfl, rfl, allowlist_fallback_star (PyVal.int 42) rfl rfl⟩

/-- C9. The normalizer is idempotent: its output is always a list, and it is
the identity on lists, so applying it to its own output changes nothing. -/
theorem allowlist_idempotent (v : PyVal) :
    assemble_cors_origins (assemble_cors_origins v) = assemble_cors_origins v := by
  cases v <;> rfl

theorem mem_splitComma {cs p : List Char} (hp : p ∈ splitComma cs) :
    ∀ c ∈ p, c ∈ cs ∧ ¬(c = ',') := by
  induction cs generalizing p with
  | nil =>
    simp only [splitComma, List.mem_singleton] at hp
    subst hp
    intro c hc
    cases hc
  | cons a cs ih =>
    by_cases ha : a = ','
    · subst ha
      simp [splitComma] at hp
      rcases hp with hp | hp
      · subst hp; intro c hc; cases hc
      · intro c hc
        rcases ih hp c hc with ⟨h1, h2⟩
        exact ⟨List.mem_cons_of_mem _ h1, h2⟩
    · simp only [splitComma, if_neg ha] at hp
      rcases hq : splitComma cs with _ | ⟨q, qs⟩
      · rw [hq] at hp
        simp only [List.mem_singleton] at hp
        subst hp
        intro c hc
        rcases List.mem_singleton.mp hc with rfl
        exact ⟨List.mem_cons_self _ _, ha⟩
      · rw [hq] at hp
        rcases List.mem_cons.mp hp with rfl | hp
        · intro c hc
          rcases List.mem_cons.mp hc with rfl | hc
          · exact ⟨List.mem_cons_self _ _, ha⟩
          · have hqmem : q ∈ splitComma cs := by rw [hq]; exact List.mem_cons_self _ _
            rcases ih hqmem c hc with ⟨h1, h2⟩
            exact ⟨List.mem_cons_of_mem _ h1, h2⟩
        · intro c hc
          have hpmem : p ∈ splitComma cs := by rw [hq]; exact List.mem_cons_of_mem _ hp
          rcases ih hpmem c hc with ⟨h1, h2⟩
          exact ⟨List.mem_cons_of_mem _ h1, h2⟩

theorem pyStripChars_eq_nil {p : List Char} (h : ∀ c ∈ p, pyIsSpace c) :
    pyStripChars p = [] := by
  unfold pyStripChars
  rw [List.dropWhile_eq_nil_iff.mpr h]
  rfl

/-- C10. A string made only of commas and whitespace (the empty string,
`,,,`, ...) normalizes to the empty list, not to the default `["*"]`: the
constructed `ALLOWED_HOSTS` can be an empty allow-list. -/
theorem allowlist_commas_whitespace_empty (s : String)
    (h : s.toList.all (fun c => c == ',' || pyIsSpace c) = true) :
    assemble_cors_origins (PyVal.str s) = PyVal.list [] := by
  have hfilter : ((splitComma s.toList).map pyStripChars).filter
      (fun p => !p.isEmpty) = [] := by
    rw [List.filter_eq_nil_iff]
    intro a ha
    rcases List.mem_map.mp ha with ⟨p, hp, rfl⟩
    have hnil : pyStripChars p = [] := by
      apply pyStripChars_eq_nil
      intro c hc
      rcases mem_splitComma hp c hc with ⟨h1, h2⟩
      have := List.all_eq_true.mp h c h1
      simp only [Bool.or_eq_true, beq_iff_eq] at this
      rcases this with hcomma | hspace
      · exact absurd hcomma h2
      · exact hspace
    simp [hnil]
  simp only [assemble_cors_origins, hfilter, List.map_nil]

theorem allowlist_commas_whitespace_empty_witness :
    (String.toList ",, , ").all (fun c => c == ',' || pyIsSpace c) = true ∧
    assemble_cors_origins (PyVal.str ",, , ") = PyVal.list [] :=
  ⟨by decide, allowlist_commas_whitespace_empty ",, , " (by decide)⟩

theorem isListOfStr_map_str (l : List (List Char)) :
    isListOfStr (PyVal.list (l.map (fun p => PyVal.str (String.mk p)))) = true := by
  induction l with
  | nil => rfl
  | cons p ps ih => simp [isListOfStr, isStrVal]

/-- C2 counterexample. A list input whose element is the empty string is
accepted unchanged, both by the validator directly and by the loader when
the environment carries the JSON form: the constructed `ALLOWED_HOSTS` then
contains an empty string, so it is not a sequence of non-empty strings. -/
theorem allowed_hosts_empty_string_counterexample :
    validateAllowedHosts (PyVal.list [PyVal.str ""]) =
      some (PyVal.list [PyVal.str ""]) ∧
    loadFromEnv [("ALLOWED_HOSTS", "[\"\"]")] =
      Except.ok { defaultSettings with ALLOWED_HOSTS := PyVal.list [PyVal.str ""] } ∧
    allNonEmptyStr (PyVal.list [PyVal.str ""]) = false :=
  ⟨rfl, rfl, rfl⟩

/-- C2 amended. Every accepted `ALLOWED_HOSTS` value is a list of strings and
never a raw string; when the raw input is a string every element is moreover
non-empty, but a list input is passed through unchanged and may keep empty
strings. -/
theorem allowed_hosts_always_list_of_str (v r : PyVal)
    (h : validateAllowedHosts v = some r) :
    isListOfStr r = true ∧ isStrVal r = false ∧
    (∀ s, v = PyVal.str s → allNonEmptyStr r = true) := by
  cases v with
  | str s =>
    have hok : isListOfStr (assemble_cors_origins (PyVal.str s)) = true :=
      isListOfStr_map_str _
    rw [validateAllowedHosts] at h
    simp only [hok, Bool.true_or, if_pos] at h
    obtain rfl := Option.some.inj h
    refine ⟨hok, rfl, fun s2 _ => ?_⟩
    simp only [assemble_cors_origins, allNonEmptyStr]
    rw [List.all_eq_true]
    intro p hp
    rcases List.mem_map.mp hp with ⟨q, hq, rfl⟩
    have := List.of_mem_filter hq
    simpa [nonEmptyStrVal, mk_data] using this
  | list xs =>
    rw [validateAllowedHosts] at h
    rcases hc : isListOfStr (assemble_cors_origins (PyVal.list xs)) with _ | _
    · simp only [assemble_cors_origins] at hc
      simp only [assemble_cors_origins, hc, isStrVal, Bool.false_or,
        if_neg, Bool.false_eq_true, not_false_eq_true, reduceCtorEq] at h
    · simp only [assemble_cors_origins] at hc
      simp only [assemble_cors_origins, hc, Bool.true_or, if_pos] at h
      obtain rfl := Option.some.inj h
      exact ⟨hc, rfl, fun s2 hs => by cases hs⟩
  | int n =>
    rw [validateAllowedHosts] at h
    simp only [assemble_cors_origins] at h
    rcases h.symm.trans (by rfl :
      (if isListOfStr (PyVal.list [PyVal.str "*"]) || isStrVal (PyVal.list [PyVal.str "*"])
        then some (PyVal.list [PyVal.str "*"]) else Option.none) =
      some (PyVal.list [PyVal.str "*"])) with h2
    cases h2
    exact ⟨rfl, rfl, fun s2 hs => by cases hs⟩
  | other =>
    rw [validateAllowedHosts] at h
    simp only [assemble_cors_origins] at h
    rcases h.symm.trans (by rfl :
      (if isListOfStr (PyVal.list [PyVal.str "*"]) || isStrVal (PyVal.list [PyVal.str "*"])
        then some (PyVal.list [PyVal.str "*"]) else Option.none) =
      some (PyVal.list [PyVal.str "*"])) with h2
    cases h2
    exact ⟨rfl, rfl, fun s2 hs => by cases hs⟩

theorem allowed_hosts_always_list_of_str_witness :
    validateAllowedHosts (PyVal.str "a,b") =
      some (PyVal.list [PyVal.str "a", PyVal.str "b"]) ∧
    isListOfStr (PyVal.list [PyVal.str "a", PyVal.str "b"]) = true ∧
    isStrVal (PyVal.list [PyVal.str "a", PyVal.str "b"]) = false ∧
    allNonEmptyStr (PyVal.list [PyVal.str "a", PyVal.str "b"]) = true := by
  have h := allowed_hosts_always_list_of_str (PyVal.str "a,b")
    (PyVal.list [PyVal.str "a", PyVal.str "b"]) rfl
  exact ⟨rfl, h.1, h.2.1, h.2.2 "a,b" rfl⟩

/-- The 21 environment-variable names the loader binds. -/
def settingsEnvNames : List String :=
  ["PROJECT_NAME", "VERSION", "DESCRIPTION", "API_V1_STR", "ENVIRONMENT",
   "ALLOWED_HOSTS", "AWS_REGION", "AWS_ACCESS_KEY_ID", "AWS_SECRET_ACCESS_KEY",
   "DYNAMODB_TABLE_PREFIX", "USERS_TABLE_NAME", "COGNITO_USER_POOL_ID",
   "COGNITO_CLIENT_ID", "COGNITO_CLIENT_SECRET", "COGNITO_REGION",
   "S3_BUCKET_NAME", "S3_REGION", "JWT_SECRET_KEY", "JWT_ALGORITHM",
   "ACCESS_TOKEN_EXPIRE_MINUTES", "CACHE_TTL"]

theorem lookupEnv_append_some {f : Env} {k v : String}
    (h : lookupEnv f k = some v) (p : Env) :
    lookupEnv (f ++ p) k = some v := by
  induction f with
  | nil => simp [lookupEnv] at h
  | cons a f ih =>
    unfold lookupEnv at h ⊢
    by_cases hak : (a.1 == k) = true
    · simp only [List.cons_append, List.find?_cons, hak] at h ⊢
      exact h
    · simp only [List.cons_append, List.find?_cons,
        Bool.eq_false_iff.mpr hak] at h ⊢
      exact ih h

/-- C5. With no environment-definition file and all 21 declared variables
unset, `load()` succeeds and every field of the result is its documented
default. -/
theorem load_defaults_when_env_unset (procEnv : Env)
    (h : ∀ name, name ∈ settingsEnvNames → lookupEnv procEnv name = Option.none) :
    load [] procEnv = Except.ok defaultSettings := by
  have h1 := h "PROJECT_NAME" (by simp [settingsEnvNames])
  have h2 := h "VERSION" (by simp [settingsEnvNames])
  have h3 := h "DESCRIPTION" (by simp [settingsEnvNames])
  have h4 := h "API_V1_STR" (by simp [settingsEnvNames])
  have h5 := h "ENVIRONMENT" (by simp [settingsEnvNames])
  have h6 := h "ALLOWED_HOSTS" (by simp [settingsEnvNames])
  have h7 := h "AWS_REGION" (by simp [settingsEnvNames])
  have h8 := h "AWS_ACCESS_KEY_ID" (by simp [settingsEnvNames])
  have h9 := h "AWS_SECRET_ACCESS_KEY" (by simp [settingsEnvNames])
  have h10 := h "DYNAMODB_TABLE_PREFIX" (by simp [settingsEnvNames])
  have h11 := h "USERS_TABLE_NAME" (by simp [settingsEnvNames])
  have h12 := h "COGNITO_USER_POOL_ID" (by simp [settingsEnvNames])
  have h13 := h "COGNITO_CLIENT_ID" (by simp [settingsEnvNames])
  have h14 := h "COGNITO_CLIENT_SECRET" (by simp [settingsEnvNames])
  have h15 := h "COGNITO_REGION" (by simp [settingsEnvNames])
  have h16 := h "S3_BUCKET_NAME" (by simp [settingsEnvNames])
  have h17 := h "S3_REGION" (by simp [settingsEnvNames])
  have h18 := h "JWT_SECRET_KEY" (by simp [settingsEnvNames])
  have h19 := h "JWT_ALGORITHM" (by simp [settingsEnvNames])
  have h20 := h "ACCESS_TOKEN_EXPIRE_MINUTES" (by simp [settingsEnvNames])
  have h21 := h "CACHE_TTL" (by simp [settingsEnvNames])
  have hm : mergeDotenv [] procEnv = procEnv := by simp [mergeDotenv]
  simp [load, loadFromEnv, hm, getStr, getOptStr, getInt, defaultSettings,
    Bind.bind, Except.bind,
    h1, h2, h3, h4, h5, h6, h7, h8, h9, h10, h11, h12, h13, h14, h15, h16,
    h17, h18, h19, h20, h21]

theorem load_defaults_when_env_unset_witness :
    load [] [] = Except.ok defaultSettings :=
  load_defaults_when_env_unset [] (fun _ _ => rfl)

theorem getInt_error_iff (env : Env) (name : String) (d : Int) :
    (∃ e, getInt env name d = Except.error e) ↔
    (∃ s, lookupEnv env name = some s ∧ pyIntParse s = Option.none) := by
  unfold getInt
  rcases h1 : lookupEnv env name with _ | s
  · simp
  · rcases h2 : pyIntParse s with _ | n
    · simp [h2]
    · simp [h2]

theorem getInt_ok_of_parse {env : Env} {name s : String} {n : Int} (d : Int)
    (hl : lookupEnv env name = some s) (hp : pyIntParse s = some n) :
    getInt env name d = Except.ok n := by
  simp [getInt, hl, hp]

theorem loadFromEnv_ok_iff (env : Env) (st : Settings) :
    loadFromEnv env = Except.ok st ↔
    ∃ tokMin ttl,
      getInt env "ACCESS_TOKEN_EXPIRE_MINUTES" 30 = Except.ok tokMin ∧
      getInt env "CACHE_TTL" 300 = Except.ok ttl ∧
      st =
        { PROJECT_NAME := getStr env "PROJECT_NAME" "FastAPI AWS Boilerplate"
          VERSION := getStr env "VERSION" "1.0.0"
          DESCRIPTION := getStr env "DESCRIPTION" "FastAPI application with AWS services"
          API_V1_STR := getStr env "API_V1_STR" "/api/v1"
          ENVIRONMENT := getStr env "ENVIRONMENT" "development"
          ALLOWED_HOSTS :=
            match lookupEnv env "ALLOWED_HOSTS" with
            | Option.none => PyVal.list [PyVal.str "*"]
            | some s => allowedHostsFromEnv s
          AWS_REGION := getStr env "AWS_REGION" "us-east-1"
          AWS_ACCESS_KEY_ID := getOptStr env "AWS_ACCESS_KEY_ID"
          AWS_SECRET_ACCESS_KEY := getOptStr env "AWS_SECRET_ACCESS_KEY"
          DYNAMODB_TABLE_PREFIX := getStr env "DYNAMODB_TABLE_PREFIX" "fastapi-app"
          USERS_TABLE_NAME := getStr env "USERS_TABLE_NAME" "fastapi-app-users"
          COGNITO_USER_POOL_ID := getOptStr env "COGNITO_USER_POOL_ID"
          COGNITO_CLIENT_ID := getOptStr env "COGNITO_CLIENT_ID"
          COGNITO_CLIENT_SECRET := getOptStr env "COGNITO_CLIENT_SECRET"
          COGNITO_REGION := getStr env "COGNITO_REGION" "us-east-1"
          S3_BUCKET_NAME := getOptStr env "S3_BUCKET_NAME"
          S3_REGION := getStr env "S3_REGION" "us-east-1"
          JWT_SECRET_KEY := getStr env "JWT_SECRET_KEY" "your-secret-key-change-this"
          JWT_ALGORITHM := getStr env "JWT_ALGORITHM" "HS256"
          ACCESS_TOKEN_EXPIRE_MINUTES := tokMin
          CACHE_TTL := ttl } := by
  unfold loadFromEnv
  rcases h1 : getInt env "ACCESS_TOKEN_EXPIRE_MINUTES" 30 with e1 | n1
  · simp [h1, Bind.bind, Except.bind]
  · rcases h2 : getInt env "CACHE_TTL" 300 with e2 | n2
    · simp [h2, Bind.bind, Except.bind]
    · simp only [Bind.bind, Except.bind]
      constructor
      · intro h
        exact ⟨n1, n2, rfl, rfl, (Except.ok.inj h).symm⟩
      · rintro ⟨tokMin, ttl, ha, hb, rfl⟩
        obtain rfl := Except.ok.inj ha
        obtain rfl := Except.ok.inj hb
        rfl

/-- C6. When the environment-definition file binds `AWS_REGION`, its value
wins over any same-named pre-existing process variable: the loaded
`AWS_REGION` field is the file's value. -/
theorem dotenv_file_wins (fileEnv procEnv : Env) (v : String)
    (hf : lookupEnv fileEnv "AWS_REGION" = some v) :
    ∀ st, load fileEnv procEnv = Except.ok st → st.AWS_REGION = v := by
  intro st h
  have hm : lookupEnv (mergeDotenv fileEnv procEnv) "AWS_REGION" = some v :=
    lookupEnv_append_some hf procEnv
  unfold load at h
  obtain ⟨tokMin, ttl, h1, h2, rfl⟩ := (loadFromEnv_ok_iff _ _).mp h
  simp [getStr, hm]

theorem dotenv_file_wins_witness :
    ∃ st, load [("AWS_REGION", "eu-west-1")] [("AWS_REGION", "us-east-1")] =
      Except.ok st ∧ st.AWS_REGION = "eu-west-1" := by
  refine ⟨{ defaultSettings with AWS_REGION := "eu-west-1" }, rfl, ?_⟩
  exact dotenv_file_wins [("AWS_REGION", "eu-west-1")] [("AWS_REGION", "us-east-1")]
    "eu-west-1" rfl { defaultSettings with AWS_REGION := "eu-west-1" } rfl

/-- C7. The loader fails, with a `ConfigError` surfaced to the caller,
exactly when one of the integer fields `ACCESS_TOKEN_EXPIRE_MINUTES` or
`CACHE_TTL` has an environment value that does not parse as a base-10
integer; when such a value parses (for example to 45), the field of the
returned settings equals the parsed integer. -/
theorem load_int_fields_config_error (env : Env) :
    ((∃ e, loadFromEnv env = Except.error e) ↔
      ((∃ s, lookupEnv env "ACCESS_TOKEN_EXPIRE_MINUTES" = some s ∧
          pyIntParse s = Option.none) ∨
       (∃ s, lookupEnv env "CACHE_TTL" = some s ∧ pyIntParse s = Option.none))) ∧
    (∀ st, loadFromEnv env = Except.ok st →
      (∀ s n, lookupEnv env "ACCESS_TOKEN_EXPIRE_MINUTES" = some s →
        pyIntParse s = some n → st.ACCESS_TOKEN_EXPIRE_MINUTES = n) ∧
      (∀ s n, lookupEnv env "CACHE_TTL" = some s →
        pyIntParse s = some n → st.CACHE_TTL = n)) := by
  constructor
  · rw [← getInt_error_iff env "ACCESS_TOKEN_EXPIRE_MINUTES" 30,
      ← getInt_error_iff env "CACHE_TTL" 300]
    unfold loadFromEnv
    rcases h1 : getInt env "ACCESS_TOKEN_EXPIRE_MINUTES" 30 with e1 | n1
    · simp [Bind.bind, Except.bind]
    · rcases h2 : getInt env "CACHE_TTL" 300 with e2 | n2
      · simp [Bind.bind, Except.bind]
      · simp [Bind.bind, Except.bind]
  · intro st h
    obtain ⟨tokMin, ttl, h1, h2, rfl⟩ := (loadFromEnv_ok_iff _ _).mp h
    constructor
    · intro s n hl hp
      have := (getInt_ok_of_parse 30 hl hp).symm.trans h1
      exact (Except.ok.inj this).symm
    · intro s n hl hp
      have := (getInt_ok_of_parse 300 hl hp).symm.trans h2
      exact (Except.ok.inj this).symm

theorem load_int_fields_config_error_witness :
    (∃ st, loadFromEnv [("ACCESS_TOKEN_EXPIRE_MINUTES", "45")] = Except.ok st ∧
      st.ACCESS_TOKEN_EXPIRE_MINUTES = 45) ∧
    (∃ e, loadFromEnv [("ACCESS_TOKEN_EXPIRE_MINUTES", "not-a-number")] =
      Except.error e) := by
  constructor
  · refine ⟨{ defaultSettings with ACCESS_TOKEN_EXPIRE_MINUTES := 45 }, rfl, ?_⟩
    exact ((load_int_fields_config_error [("ACCESS_TOKEN_EXPIRE_MINUTES", "45")]).2
      { defaultSettings with ACCESS_TOKEN_EXPIRE_MINUTES := 45 } rfl).1 "45" 45 rfl rfl
  · exact (load_int_fields_config_error
      [("ACCESS_TOKEN_EXPIRE_MINUTES", "not-a-number")]).1.mpr
      (Or.inl ⟨"not-a-number", rfl, rfl⟩)

/-- C8. `load()` is deterministic: it depends on nothing but the merged
environment's bindings, so two runs over identical environments (same file
and process bindings, however represented) return field-wise equal results,
or both fail. -/
theorem load_deterministic (f1 p1 f2 p2 : Env)
    (h : ∀ k, lookupEnv (mergeDotenv f1 p1) k = lookupEnv (mergeDotenv f2 p2) k) :
    load f1 p1 = load f2 p2 := by
  unfold load loadFromEnv
  simp only [getStr, getOptStr, getInt, h]

theorem load_deterministic_witness :
    load [("AWS_REGION", "x"), ("AWS_REGION", "y")] [] =
      load [("AWS_REGION", "x")] [] := by
  apply load_deterministic
  intro k
  simp only [mergeDotenv, List.append_nil, lookupEnv]
  by_cases hk : (("AWS_REGION" : String) == k) = true
  · simp [List.find?_cons, hk]
  · simp [List.find?_cons, Bool.eq_false_iff.mpr hk]

end Config
